import Mathlib

/-!
Shallow embedding of `MultiThreader::SingleMethodExecute` from
`src/Modules/Core/Common/src/itkMultiThreader.cxx` (namespace `itk`).

The dispatcher is modelled as a deterministic state transformer over an
explicit environment that fixes the outcome of every external interaction:
the behaviour of the registered user function on each slot, the result of
every backend spawn, and the result of every backend wait.  Each run also
produces a trace of observable events (slot configuration, spawn, user
function invocation, wait, exit-code inspection) so that ordering claims
can be stated.

Code that the excerpt only calls but does not contain (the thread backend
`SpawnDispatchSingleMethodThread` / `SpawnWaitForSingleMethodThread` and
the supervisor wrapper `SingleMethodProxy`) is modelled from the spec; the
definitions concerned say so in their doc comments.
-/

namespace ITKMT

/-- Per-slot outcome code (`ThreadExitCode`).  The header defining the
enumeration is not part of the excerpt, so the taxonomy is the spec's
tagged outcome variant: not-yet-run / success / user-exception /
abort-signal / backend-failure. -/
inductive Outcome where
  | notYetRun
  | success
  | userException
  | abortSignal
  | backendFailure
  deriving DecidableEq, Repr

/-- Behaviour of one invocation of a registered user function: return
normally, throw a `std::exception` carrying a message, throw something
that is not a `std::exception`, or throw the distinguished
`ProcessAborted` condition. -/
inductive FnRes where
  | ok
  | raiseStd (msg : String)
  | raiseOther
  | raiseAbort
  deriving DecidableEq, Repr

/-- Behaviour of one backend spawn (`SpawnDispatchSingleMethodThread`):
succeed, throw a `std::exception` with a message, or throw something
else.  In `SingleMethodExecute` a throwing spawn is caught by the
`try`/`catch` wrapped around the whole spawn loop. -/
inductive SpawnRes where
  | ok
  | raiseStd (msg : String)
  | raiseOther
  deriving DecidableEq, Repr

/-- Behaviour of one backend wait (`SpawnWaitForSingleMethodThread`). -/
inductive WaitRes where
  | ok
  | raiseStd (msg : String)
  | raiseOther
  deriving DecidableEq, Repr

/-- One per-thread execution record (`ThreadInfoStruct`).  `userData` is
the opaque `void *` (modelled as an optional number), `threadFunction`
the registered function (modelled as an optional function identifier),
`threadExitCode` the outcome code, and `exitMessage` the diagnostic
message the supervisor wrapper records on a user exception (the wrapper
is modelled from the spec, see `runProxy`). -/
structure ThreadInfoStruct where
  threadID : Nat
  userData : Option Nat
  numberOfThreads : Nat
  threadFunction : Option Nat
  threadExitCode : Outcome
  exitMessage : Option String
  deriving DecidableEq, Repr

/-- The dispatcher state: the registered single method and its data
(`m_SingleMethod` / `m_SingleData`), the requested thread count
(`m_NumberOfThreads`), and the slot registry (`m_ThreadInfoArray`),
indexed by slot number. -/
structure MultiThreader where
  singleMethod : Option Nat
  singleData : Option Nat
  numberOfThreads : Nat
  threadInfoArray : Nat → ThreadInfoStruct

/-- The environment of one dispatch round: the global thread-count
ceiling (`MultiThreaderBase::GetGlobalMaximumNumberOfThreads()`), the
behaviour `fnRes f i` of registered function `f` when run for slot `i`,
and the backend's spawn/wait behaviour per slot index. -/
structure Env where
  globalMax : Nat
  fnRes : Nat → Nat → FnRes
  spawnRes : Nat → SpawnRes
  waitRes : Nat → WaitRes

/-- Observable events of one dispatch round, in program order. -/
inductive Event where
  | configured (i : Nat)
  | spawned (i : Nat)
  | spawnFailed (i : Nat)
  | invoked (i : Nat)
  | waited (i : Nat)
  | observed (i : Nat) (o : Outcome)
  deriving DecidableEq, Repr

/-- Exceptions that can escape `SingleMethodExecute`: the
no-function-registered error, the re-raised `ProcessAborted`, and the
aggregated end-of-round failure carrying the retained
`exceptionDetails` string. -/
inductive ExecErr where
  | noMethodSet
  | processAborted
  | aggregated (details : String)
  deriving DecidableEq, Repr

/-- The message text of a raised failure, following the
`itkExceptionMacro` calls in `SingleMethodExecute`: the aggregated
failure prefixes a fixed sentence and appends the retained details when
they are non-empty. -/
def ExecErr.message : ExecErr → String
  | .noMethodSet => "No single method set!"
  | .processAborted => "ProcessAborted"
  | .aggregated d =>
      if d.isEmpty then "Exception occurred during SingleMethodExecute"
      else "Exception occurred during SingleMethodExecute\n" ++ d

/-- Update one slot of the registry. -/
def setSlot (arr : Nat → ThreadInfoStruct) (i : Nat) (s : ThreadInfoStruct) :
    Nat → ThreadInfoStruct :=
  fun j => if j = i then s else arr j

/-- Modelled from the spec: the supervisor wrapper
(`SingleMethodProxy`), whose source is not in the excerpt.  Run on each
spawned thread, it invokes the user function and records the outcome
into the slot: clean return becomes success; the distinguished abort
condition is recorded as an abort outcome; any other failure is recorded
as a user-exception, with its message captured into the slot. -/
def runProxy (res : FnRes) (s : ThreadInfoStruct) : ThreadInfoStruct :=
  match res with
  | .ok => { s with threadExitCode := .success }
  | .raiseStd m => { s with threadExitCode := .userException, exitMessage := some m }
  | .raiseOther => { s with threadExitCode := .userException }
  | .raiseAbort => { s with threadExitCode := .abortSignal }

/-- The mutable locals of one `SingleMethodExecute` call: the dispatcher
state, the `process_id` handle table (0 = invalid handle, as in the
source's init loop), the `exceptionOccurred` flag, the
`exceptionDetails` string, and the event trace. -/
structure RoundState where
  mt : MultiThreader
  processId : Nat → Nat
  exceptionOccurred : Bool
  exceptionDetails : String
  trace : List Event

/-- One iteration of the spawn loop for index `i`: configure slot `i`
with the registered data, the clamped thread count and the function,
then ask the backend to spawn.  Returns the updated locals and whether
the spawn threw (in which case the enclosing `try` aborts the whole
loop).  On a successful spawn the supervisor wrapper (spec-modelled)
runs the user function on the new thread and records the slot outcome;
recording it here is observationally equivalent because the slot is only
read after the corresponding wait. -/
def spawnOne (env : Env) (f : Nat) (i : Nat) (rs : RoundState) :
    RoundState × Bool :=
  let slot := { rs.mt.threadInfoArray i with
                userData := rs.mt.singleData,
                numberOfThreads := rs.mt.numberOfThreads,
                threadFunction := some f }
  let mt := { rs.mt with threadInfoArray := setSlot rs.mt.threadInfoArray i slot }
  match env.spawnRes i with
  | .ok =>
      ({ rs with
         mt := { mt with
                 threadInfoArray :=
                   setSlot mt.threadInfoArray i (runProxy (env.fnRes f i) slot) },
         processId := fun j => if j = i then i else rs.processId j,
         trace := rs.trace ++ [.configured i, .spawned i, .invoked i] }, false)
  | .raiseStd m =>
      ({ rs with
         mt := mt,
         exceptionOccurred := true,
         exceptionDetails := m,
         trace := rs.trace ++ [.configured i, .spawnFailed i] }, true)
  | .raiseOther =>
      ({ rs with
         mt := mt,
         exceptionOccurred := true,
         trace := rs.trace ++ [.configured i, .spawnFailed i] }, true)

/-- The spawn loop (`for thread_loop = 1 .. m_NumberOfThreads - 1`),
wrapped in a single `try`/`catch`: a throwing spawn terminates the loop
and leaves the remaining indices unprocessed. -/
def spawnLoop (env : Env) (f : Nat) : List Nat → RoundState → RoundState
  | [], rs => rs
  | i :: rest, rs =>
      match spawnOne env f i rs with
      | (rs', true) => rs'
      | (rs', false) => spawnLoop env f rest rs'

/-- The calling thread's own slot-0 step: configure slot 0 with the data
and the clamped thread count (the source does not set `ThreadFunction`
for slot 0) and invoke `m_SingleMethod` directly.  Returns the updated
locals and whether `ProcessAborted` was raised; an ordinary
`std::exception` records its message into `exceptionDetails` and sets
`exceptionOccurred`, any other throw sets only the flag. -/
def runSlot0 (env : Env) (f : Nat) (rs : RoundState) : RoundState × Bool :=
  let slot := { rs.mt.threadInfoArray 0 with
                userData := rs.mt.singleData,
                numberOfThreads := rs.mt.numberOfThreads }
  let rs' := { rs with
               mt := { rs.mt with
                       threadInfoArray := setSlot rs.mt.threadInfoArray 0 slot },
               trace := rs.trace ++ [.configured 0, .invoked 0] }
  match env.fnRes f 0 with
  | .raiseAbort => (rs', true)
  | .raiseStd m =>
      ({ rs' with exceptionOccurred := true, exceptionDetails := m }, false)
  | .raiseOther => ({ rs' with exceptionOccurred := true }, false)
  | .ok => (rs', false)

/-- The abort-path wait loop: wait on every handle in index order,
swallowing any failure raised by a wait (`try { wait } catch (...) {}`),
inspecting nothing else. -/
def abortWaitLoop : List Nat → RoundState → RoundState
  | [], rs => rs
  | i :: rest, rs => abortWaitLoop rest { rs with trace := rs.trace ++ [.waited i] }

/-- Modelled from the spec: waiting on an invalid (zero) handle is a
no-op that returns normally — the backend checks handle validity, and
the sequential-fallback wait is a no-op on its sentinel handle.  A valid
handle defers to the environment's wait behaviour. -/
def effWaitRes (env : Env) (pid : Nat → Nat) (i : Nat) : WaitRes :=
  if pid i = 0 then .ok else env.waitRes i

/-- One iteration of the normal wait loop: wait on the handle for index
`i`; if the wait returns normally, inspect the slot's exit code and set
`exceptionOccurred` when it is not success; if the wait throws a
`std::exception`, record its message; any throw sets the flag. -/
def waitOne (env : Env) (i : Nat) (rs : RoundState) : RoundState :=
  match effWaitRes env rs.processId i with
  | .ok =>
      let o := (rs.mt.threadInfoArray i).threadExitCode
      let rs' := { rs with trace := rs.trace ++ [.waited i, .observed i o] }
      if o ≠ Outcome.success then { rs' with exceptionOccurred := true } else rs'
  | .raiseStd m =>
      { rs with
        exceptionOccurred := true,
        exceptionDetails := m,
        trace := rs.trace ++ [.waited i] }
  | .raiseOther =>
      { rs with exceptionOccurred := true, trace := rs.trace ++ [.waited i] }

/-- The normal wait loop (`for thread_loop = 1 .. m_NumberOfThreads - 1`
after slot 0 has run): every index is processed regardless of earlier
failures, each iteration protected by its own `try`/`catch`. -/
def waitLoop (env : Env) : List Nat → RoundState → RoundState
  | [], rs => rs
  | i :: rest, rs => waitLoop env rest (waitOne env i rs)

/-- Result of one `SingleMethodExecute` call: the raised exception (if
any), the dispatcher state at return, and the event trace. -/
structure ExecResult where
  result : Except ExecErr Unit
  state : MultiThreader
  trace : List Event

/-- `MultiThreader::SingleMethodExecute`, translated control-flow step
by control-flow step from the source: fail if no method is set; clamp
`m_NumberOfThreads` against the global ceiling (destructively, into the
member); zero the handle table; run the spawn loop under one `try`; run
slot 0 on the calling thread; on `ProcessAborted` from slot 0 drain all
handles and re-raise; otherwise wait on every handle in index order and
finally raise the aggregated failure iff `exceptionOccurred`. -/
def SingleMethodExecute (env : Env) (st : MultiThreader) : ExecResult :=
  match st.singleMethod with
  | none => ⟨.error .noMethodSet, st, []⟩
  | some f =>
      let n := min env.globalMax st.numberOfThreads
      let st' := { st with numberOfThreads := n }
      let rs0 : RoundState := ⟨st', fun _ => 0, false, "", []⟩
      let rs1 := spawnLoop env f (List.range' 1 (n - 1)) rs0
      let p := runSlot0 env f rs1
      if p.2 then
        let rs3 := abortWaitLoop (List.range' 1 (n - 1)) p.1
        ⟨.error .processAborted, rs3.mt, rs3.trace⟩
      else
        let rs3 := waitLoop env (List.range' 1 (n - 1)) p.1
        if rs3.exceptionOccurred then
          ⟨.error (.aggregated rs3.exceptionDetails), rs3.mt, rs3.trace⟩
        else
          ⟨.ok (), rs3.mt, rs3.trace⟩

/-- `MultiThreader::SetSingleMethod`: overwrite the registration. -/
def SetSingleMethod (st : MultiThreader) (f : Nat) (data : Option Nat) :
    MultiThreader :=
  { st with singleMethod := some f, singleData := data }

/-- Event classifiers used to state ordering and counting claims. -/
def Event.isWaited : Event → Bool
  | .waited _ => true
  | _ => false

def Event.isSpawned : Event → Bool
  | .spawned _ => true
  | _ => false

/-- A spawn was attempted for an index iff the backend call was issued,
which leaves either a `spawned` or a `spawnFailed` event. -/
def Event.isSpawnAttempt : Event → Bool
  | .spawned _ => true
  | .spawnFailed _ => true
  | _ => false

def Event.isInvoked : Event → Bool
  | .invoked _ => true
  | _ => false

/-- A default slot, as left by the constructor: outcome not-yet-run,
no diagnostics. -/
def initSlot (i : Nat) : ThreadInfoStruct :=
  ⟨i, none, 0, none, .notYetRun, none⟩

/-- A fresh `MultiThreader` with requested thread count `m` and the
function `f` registered with data `d`. -/
def mkMT (f : Option Nat) (d : Option Nat) (m : Nat) : MultiThreader :=
  ⟨f, d, m, initSlot⟩

/-- The slot contents written by the spawn loop for index `i` just
before the backend spawn is issued. -/
def cfgSlot (mt : MultiThreader) (f : Nat) (i : Nat) : ThreadInfoStruct :=
  { mt.threadInfoArray i with
    userData := mt.singleData,
    numberOfThreads := mt.numberOfThreads,
    threadFunction := some f }

/-- Events produced by one successful spawn-loop iteration. -/
def spawnBlock (i : Nat) : List Event :=
  [.configured i, .spawned i, .invoked i]

/-- An environment in which every interaction succeeds, under global
ceiling `c`. -/
def envAllOk (c : Nat) : Env :=
  ⟨c, fun _ _ => .ok, fun _ => .ok, fun _ => .ok⟩

/-- An environment in which the user function fails with message "boom"
on slot 1 and succeeds everywhere else; backend fully reliable. -/
def envSlot1Boom : Env :=
  ⟨4, fun _ i => if i = 1 then .raiseStd "boom" else .ok,
   fun _ => .ok, fun _ => .ok⟩

/-- An environment in which the user function fails with message "boom"
on slot 0 and succeeds everywhere else; backend fully reliable. -/
def envSlot0Boom : Env :=
  ⟨4, fun _ i => if i = 0 then .raiseStd "boom" else .ok,
   fun _ => .ok, fun _ => .ok⟩

/-- An environment in which the backend refuses the spawn for index 1
(throwing a `std::exception` with message "nope") but would accept any
other spawn; the user function always succeeds. -/
def envSpawn1Fails : Env :=
  ⟨4, fun _ _ => .ok,
   fun i => if i = 1 then .raiseStd "nope" else .ok, fun _ => .ok⟩

/-- An environment in which slot 0 raises the abort condition and the
wait for index 2 itself throws (to exercise the swallowing of wait
failures on the abort path). -/
def envAbort0 : Env :=
  ⟨4, fun _ i => if i = 0 then .raiseAbort else .ok, fun _ => .ok,
   fun i => if i = 2 then .raiseOther else .ok⟩

/-- The locals of a round at entry, after the no-method check and the
destructive clamp of `m_NumberOfThreads` for a registered function `f`:
handle table zeroed, no exception yet, empty trace. -/
def initRS (env : Env) (st : MultiThreader) (f : Nat) : RoundState :=
  ⟨⟨some f, st.singleData, min env.globalMax st.numberOfThreads,
      st.threadInfoArray⟩,
    fun _ => 0, false, "", []⟩

/-! ### Registry update lemmas -/

theorem setSlot_same (arr : Nat → ThreadInfoStruct) (i : Nat)
    (s : ThreadInfoStruct) : setSlot arr i s i = s := by
  simp [setSlot]

theorem setSlot_other (arr : Nat → ThreadInfoStruct) (i j : Nat)
    (s : ThreadInfoStruct) (h : j ≠ i) : setSlot arr i s j = arr j := by
  simp [setSlot, h]

theorem setSlot_setSlot (arr : Nat → ThreadInfoStruct) (i : Nat)
    (s t : ThreadInfoStruct) : setSlot (setSlot arr i s) i t = setSlot arr i t := by
  funext j
  by_cases h : j = i <;> simp [setSlot, h]

theorem runProxy_userData (res : FnRes) (s : ThreadInfoStruct) :
    (runProxy res s).userData = s.userData := by
  cases res <;> simp [runProxy]

theorem runProxy_numberOfThreads (res : FnRes) (s : ThreadInfoStruct) :
    (runProxy res s).numberOfThreads = s.numberOfThreads := by
  cases res <;> simp [runProxy]

theorem runProxy_exitCode_ok (s : ThreadInfoStruct) :
    (runProxy .ok s).threadExitCode = .success := by
  simp [runProxy]

theorem runProxy_exitCode_ne_success (res : FnRes) (s : ThreadInfoStruct)
    (h : res ≠ .ok) : (runProxy res s).threadExitCode ≠ .success := by
  cases res <;> simp_all [runProxy]

/-! ### One spawn iteration -/

theorem spawnOne_ok (env : Env) (f i : Nat) (rs : RoundState)
    (h : env.spawnRes i = .ok) :
    spawnOne env f i rs =
      ({ rs with
         mt := { rs.mt with
                 threadInfoArray :=
                   setSlot rs.mt.threadInfoArray i
                     (runProxy (env.fnRes f i) (cfgSlot rs.mt f i)) },
         processId := fun j => if j = i then i else rs.processId j,
         trace := rs.trace ++ spawnBlock i }, false) := by
  simp only [spawnOne, h, cfgSlot, spawnBlock, setSlot_setSlot]

theorem spawnOne_fail (env : Env) (f i : Nat) (rs : RoundState)
    (h : env.spawnRes i ≠ .ok) :
    (spawnOne env f i rs).2 = true ∧
    (spawnOne env f i rs).1.mt =
      { rs.mt with threadInfoArray := setSlot rs.mt.threadInfoArray i (cfgSlot rs.mt f i) } ∧
    (spawnOne env f i rs).1.processId = rs.processId ∧
    (spawnOne env f i rs).1.exceptionOccurred = true ∧
    (spawnOne env f i rs).1.trace = rs.trace ++ [.configured i, .spawnFailed i] := by
  cases hs : env.spawnRes i <;> simp_all [spawnOne, cfgSlot]

/-! ### The spawn loop -/

theorem spawnLoop_meta (env : Env) (f : Nat) (l : List Nat) (rs : RoundState) :
    (spawnLoop env f l rs).mt.singleMethod = rs.mt.singleMethod ∧
    (spawnLoop env f l rs).mt.singleData = rs.mt.singleData ∧
    (spawnLoop env f l rs).mt.numberOfThreads = rs.mt.numberOfThreads := by
  induction l generalizing rs with
  | nil => simp [spawnLoop]
  | cons i rest ih =>
      cases hs : env.spawnRes i with
      | ok => simpa [spawnLoop, spawnOne_ok env f i rs hs] using ih _
      | raiseStd m => simp [spawnLoop, spawnOne, hs]
      | raiseOther => simp [spawnLoop, spawnOne, hs]

theorem spawnLoop_ok_eq (env : Env) (f : Nat) (l : List Nat) (rs : RoundState)
    (h : ∀ k ∈ l, env.spawnRes k = .ok) :
    (spawnLoop env f l rs).trace = rs.trace ++ l.flatMap spawnBlock ∧
    (spawnLoop env f l rs).exceptionOccurred = rs.exceptionOccurred ∧
    (spawnLoop env f l rs).exceptionDetails = rs.exceptionDetails ∧
    (∀ j, (spawnLoop env f l rs).processId j =
      if j ∈ l then j else rs.processId j) ∧
    (∀ j, j ∉ l →
      (spawnLoop env f l rs).mt.threadInfoArray j = rs.mt.threadInfoArray j) := by
  induction l generalizing rs with
  | nil => simp [spawnLoop]
  | cons i rest ih =>
      have hi : env.spawnRes i = .ok := h i (by simp)
      have hrest : ∀ k ∈ rest, env.spawnRes k = .ok := fun k hk => h k (by simp [hk])
      rw [spawnLoop, spawnOne_ok env f i rs hi]
      obtain ⟨ht, ho, hd, hp, hs⟩ := ih _ hrest
      refine ⟨?_, by simpa using ho, by simpa using hd, ?_, ?_⟩
      · simp [ht]
      · intro j
        rw [hp j]
        by_cases hj : j = i
        · simp [hj]
        · by_cases hjr : j ∈ rest <;> simp [hj, hjr]
      · intro j hj
        have hj1 : j ≠ i := by intro hc; exact hj (by simp [hc])
        have hj2 : j ∉ rest := fun hc => hj (by simp [hc])
        rw [hs j hj2]
        simp [setSlot_other _ _ _ _ hj1]

theorem spawnLoop_ok_slot (env : Env) (f : Nat) (l : List Nat) (rs : RoundState)
    (h : ∀ k ∈ l, env.spawnRes k = .ok) (hnd : l.Nodup) (i : Nat) (hi : i ∈ l) :
    (spawnLoop env f l rs).mt.threadInfoArray i =
      runProxy (env.fnRes f i) (cfgSlot rs.mt f i) := by
  induction l generalizing rs with
  | nil => simp at hi
  | cons a rest ih =>
      have ha : env.spawnRes a = .ok := h a (by simp)
      have hrest : ∀ k ∈ rest, env.spawnRes k = .ok := fun k hk => h k (by simp [hk])
      rw [spawnLoop, spawnOne_ok env f a rs ha]
      rcases List.mem_cons.mp hi with rfl | hmem
      · have hnotin : i ∉ rest := (List.nodup_cons.mp hnd).1
        rw [(spawnLoop_ok_eq env f rest _ hrest).2.2.2.2 i hnotin]
        simp [setSlot_same]
      · have hne : a ≠ i := by
          intro hc
          exact (List.nodup_cons.mp hnd).1 (hc ▸ hmem)
        rw [ih _ hrest (List.nodup_cons.mp hnd).2 hmem]
        simp [cfgSlot, setSlot_other _ _ _ _ (Ne.symm hne)]

theorem spawnLoop_append_ok (env : Env) (f : Nat) (a b : List Nat)
    (rs : RoundState) (h : ∀ k ∈ a, env.spawnRes k = .ok) :
    spawnLoop env f (a ++ b) rs = spawnLoop env f b (spawnLoop env f a rs) := by
  induction a generalizing rs with
  | nil => simp [spawnLoop]
  | cons i rest ih =>
      have hi : env.spawnRes i = .ok := h i (by simp)
      rw [List.cons_append, spawnLoop, spawnOne_ok env f i rs hi, spawnLoop,
        spawnOne_ok env f i rs hi]
      exact ih _ fun k hk => h k (by simp [hk])

theorem spawnLoop_cons_fail (env : Env) (f j : Nat) (b : List Nat)
    (rs : RoundState) (h : env.spawnRes j ≠ .ok) :
    spawnLoop env f (j :: b) rs = (spawnOne env f j rs).1 := by
  rw [spawnLoop]
  rcases hsp : spawnOne env f j rs with ⟨rs', flag⟩
  have hflag := (spawnOne_fail env f j rs h).1
  rw [hsp] at hflag
  simp at hflag
  subst hflag
  rfl

theorem spawnLoop_trace_shape (env : Env) (f : Nat) (l : List Nat)
    (rs : RoundState) :
    ∃ t, (spawnLoop env f l rs).trace = rs.trace ++ t ∧
      t.filter Event.isWaited = [] := by
  induction l generalizing rs with
  | nil => exact ⟨[], by simp [spawnLoop], rfl⟩
  | cons i rest ih =>
      cases hs : env.spawnRes i with
      | ok =>
          rw [spawnLoop, spawnOne_ok env f i rs hs]
          obtain ⟨t, ht, hf⟩ := ih
            { rs with
              mt := { rs.mt with
                      threadInfoArray :=
                        setSlot rs.mt.threadInfoArray i
                          (runProxy (env.fnRes f i) (cfgSlot rs.mt f i)) },
              processId := fun j => if j = i then i else rs.processId j,
              trace := rs.trace ++ spawnBlock i }
          refine ⟨spawnBlock i ++ t, ?_, ?_⟩
          · rw [ht]; simp [spawnBlock]
          · simp [hf, spawnBlock, Event.isWaited]
      | raiseStd m =>
          rw [spawnLoop]
          refine ⟨[.configured i, .spawnFailed i], ?_, by simp [Event.isWaited]⟩
          simp [spawnOne, hs]
      | raiseOther =>
          rw [spawnLoop]
          refine ⟨[.configured i, .spawnFailed i], ?_, by simp [Event.isWaited]⟩
          simp [spawnOne, hs]

/-! ### The calling thread's slot-0 step -/

theorem runSlot0_snd (env : Env) (f : Nat) (rs : RoundState) :
    (runSlot0 env f rs).2 = true ↔ env.fnRes f 0 = .raiseAbort := by
  cases h : env.fnRes f 0 <;> simp [runSlot0, h]

theorem runSlot0_trace (env : Env) (f : Nat) (rs : RoundState) :
    (runSlot0 env f rs).1.trace = rs.trace ++ [.configured 0, .invoked 0] := by
  cases h : env.fnRes f 0 <;> simp [runSlot0, h]

theorem runSlot0_mt (env : Env) (f : Nat) (rs : RoundState) :
    (runSlot0 env f rs).1.mt =
      { rs.mt with
        threadInfoArray :=
          setSlot rs.mt.threadInfoArray 0
            { rs.mt.threadInfoArray 0 with
              userData := rs.mt.singleData,
              numberOfThreads := rs.mt.numberOfThreads } } := by
  cases h : env.fnRes f 0 <;> simp [runSlot0, h]

theorem runSlot0_pid (env : Env) (f : Nat) (rs : RoundState) :
    (runSlot0 env f rs).1.processId = rs.processId := by
  cases h : env.fnRes f 0 <;> simp [runSlot0, h]

theorem runSlot0_occurred_mono (env : Env) (f : Nat) (rs : RoundState)
    (h : rs.exceptionOccurred = true) :
    (runSlot0 env f rs).1.exceptionOccurred = true := by
  cases hf : env.fnRes f 0 <;> simp [runSlot0, hf, h]

theorem runSlot0_ok_flags (env : Env) (f : Nat) (rs : RoundState)
    (h : env.fnRes f 0 = .ok) :
    (runSlot0 env f rs).1.exceptionOccurred = rs.exceptionOccurred ∧
    (runSlot0 env f rs).1.exceptionDetails = rs.exceptionDetails := by
  simp [runSlot0, h]

theorem runSlot0_std_flags (env : Env) (f : Nat) (rs : RoundState) (m : String)
    (h : env.fnRes f 0 = .raiseStd m) :
    (runSlot0 env f rs).1.exceptionOccurred = true ∧
    (runSlot0 env f rs).1.exceptionDetails = m := by
  simp [runSlot0, h]

/-! ### The abort-path wait loop -/

theorem abortWaitLoop_eq (l : List Nat) (rs : RoundState) :
    abortWaitLoop l rs = { rs with trace := rs.trace ++ l.map Event.waited } := by
  induction l generalizing rs with
  | nil => simp [abortWaitLoop]
  | cons i rest ih => simp [abortWaitLoop, ih]

/-! ### The normal wait loop -/

theorem waitOne_mt_pid (env : Env) (i : Nat) (rs : RoundState) :
    (waitOne env i rs).mt = rs.mt ∧ (waitOne env i rs).processId = rs.processId := by
  cases h : effWaitRes env rs.processId i <;>
    simp [waitOne, h] <;>
    split <;> simp

theorem waitOne_trace_shape (env : Env) (i : Nat) (rs : RoundState) :
    ∃ ext, (waitOne env i rs).trace = rs.trace ++ Event.waited i :: ext ∧
      (ext = [] ∨ ∃ o, ext = [Event.observed i o]) := by
  cases h : effWaitRes env rs.processId i with
  | ok =>
      refine ⟨[Event.observed i (rs.mt.threadInfoArray i).threadExitCode], ?_, ?_⟩
      · simp only [waitOne, h]
        split <;> simp
      · exact Or.inr ⟨_, rfl⟩
  | raiseStd m => exact ⟨[], by simp [waitOne, h], Or.inl rfl⟩
  | raiseOther => exact ⟨[], by simp [waitOne, h], Or.inl rfl⟩

theorem waitOne_occurred_mono (env : Env) (i : Nat) (rs : RoundState)
    (h : rs.exceptionOccurred = true) :
    (waitOne env i rs).exceptionOccurred = true := by
  cases hw : effWaitRes env rs.processId i <;>
    simp [waitOne, hw, h] <;> split <;> simp [h]

theorem waitOne_details_ok (env : Env) (i : Nat) (rs : RoundState)
    (h : effWaitRes env rs.processId i = .ok) :
    (waitOne env i rs).exceptionDetails = rs.exceptionDetails := by
  simp only [waitOne, h]
  split <;> simp

theorem waitOne_clean (env : Env) (i : Nat) (rs : RoundState)
    (h : effWaitRes env rs.processId i = .ok)
    (hc : (rs.mt.threadInfoArray i).threadExitCode = .success) :
    (waitOne env i rs).exceptionOccurred = rs.exceptionOccurred ∧
    (waitOne env i rs).exceptionDetails = rs.exceptionDetails := by
  simp [waitOne, h, hc]

theorem waitOne_occurred_bad (env : Env) (i : Nat) (rs : RoundState)
    (h : effWaitRes env rs.processId i = .ok)
    (hc : (rs.mt.threadInfoArray i).threadExitCode ≠ .success) :
    (waitOne env i rs).exceptionOccurred = true := by
  simp [waitOne, h, hc]

theorem waitLoop_mt_pid (env : Env) (l : List Nat) (rs : RoundState) :
    (waitLoop env l rs).mt = rs.mt ∧
    (waitLoop env l rs).processId = rs.processId := by
  induction l generalizing rs with
  | nil => simp [waitLoop]
  | cons i rest ih =>
      rw [waitLoop]
      obtain ⟨h1, h2⟩ := ih (waitOne env i rs)
      obtain ⟨h3, h4⟩ := waitOne_mt_pid env i rs
      exact ⟨h1.trans h3, h2.trans h4⟩

theorem waitLoop_trace_shape (env : Env) (l : List Nat) (rs : RoundState) :
    ∃ t, (waitLoop env l rs).trace = rs.trace ++ t ∧
      t.filter Event.isWaited = l.map Event.waited ∧
      t.filter Event.isSpawned = [] ∧
      t.filter Event.isSpawnAttempt = [] ∧
      t.filter Event.isInvoked = [] := by
  induction l generalizing rs with
  | nil => exact ⟨[], by simp [waitLoop], rfl, rfl, rfl, rfl⟩
  | cons i rest ih =>
      rw [waitLoop]
      obtain ⟨t, ht, hw, hs, ha, hv⟩ := ih (waitOne env i rs)
      obtain ⟨ext, he, hcases⟩ := waitOne_trace_shape env i rs
      refine ⟨Event.waited i :: ext ++ t, ?_, ?_, ?_, ?_, ?_⟩
      · rw [ht, he]; simp
      all_goals
        rcases hcases with rfl | ⟨o, rfl⟩ <;>
          simp [hw, hs, ha, hv, Event.isWaited, Event.isSpawned,
            Event.isSpawnAttempt, Event.isInvoked]

theorem waitLoop_occurred_mono (env : Env) (l : List Nat) (rs : RoundState)
    (h : rs.exceptionOccurred = true) :
    (waitLoop env l rs).exceptionOccurred = true := by
  induction l generalizing rs with
  | nil => simpa [waitLoop] using h
  | cons i rest ih => exact ih _ (waitOne_occurred_mono env i rs h)

theorem waitLoop_details_ok (env : Env) (l : List Nat) (rs : RoundState)
    (h : ∀ i ∈ l, effWaitRes env rs.processId i = .ok) :
    (waitLoop env l rs).exceptionDetails = rs.exceptionDetails := by
  induction l generalizing rs with
  | nil => simp [waitLoop]
  | cons i rest ih =>
      rw [waitLoop]
      have hpid := (waitOne_mt_pid env i rs).2
      rw [ih _ fun k hk => by rw [hpid]; exact h k (by simp [hk])]
      exact waitOne_details_ok env i rs (h i (by simp))

theorem waitLoop_clean (env : Env) (l : List Nat) (rs : RoundState)
    (h : ∀ i ∈ l, effWaitRes env rs.processId i = .ok ∧
      (rs.mt.threadInfoArray i).threadExitCode = .success) :
    (waitLoop env l rs).exceptionOccurred = rs.exceptionOccurred ∧
    (waitLoop env l rs).exceptionDetails = rs.exceptionDetails := by
  induction l generalizing rs with
  | nil => simp [waitLoop]
  | cons i rest ih =>
      rw [waitLoop]
      obtain ⟨hmt, hpid⟩ := waitOne_mt_pid env i rs
      obtain ⟨ho, hd⟩ := waitOne_clean env i rs (h i (by simp)).1 (h i (by simp)).2
      have hrest : ∀ k ∈ rest, effWaitRes env (waitOne env i rs).processId k = .ok ∧
          ((waitOne env i rs).mt.threadInfoArray k).threadExitCode = .success := by
        intro k hk
        rw [hpid, hmt]
        exact h k (by simp [hk])
      obtain ⟨ho2, hd2⟩ := ih _ hrest
      exact ⟨ho2.trans ho, hd2.trans hd⟩

theorem waitLoop_occurred_bad (env : Env) (l : List Nat) (rs : RoundState)
    (i : Nat) (hi : i ∈ l) (hw : effWaitRes env rs.processId i = .ok)
    (hc : (rs.mt.threadInfoArray i).threadExitCode ≠ .success) :
    (waitLoop env l rs).exceptionOccurred = true := by
  induction l generalizing rs with
  | nil => simp at hi
  | cons a rest ih =>
      rw [waitLoop]
      rcases List.mem_cons.mp hi with rfl | hmem
      · exact waitLoop_occurred_mono env rest _ (waitOne_occurred_bad env i rs hw hc)
      · obtain ⟨hmt, hpid⟩ := waitOne_mt_pid env a rs
        exact ih _ hmem (by rw [hpid]; exact hw) (by rw [hmt]; exact hc)

theorem waitLoop_observed (env : Env) (l : List Nat) (rs : RoundState)
    (i : Nat) (hi : i ∈ l) (hw : effWaitRes env rs.processId i = .ok) :
    ∃ o, Event.observed i o ∈ (waitLoop env l rs).trace := by
  induction l generalizing rs with
  | nil => simp at hi
  | cons a rest ih =>
      rw [waitLoop]
      rcases List.mem_cons.mp hi with rfl | hmem
      · refine ⟨(rs.mt.threadInfoArray i).threadExitCode, ?_⟩
        obtain ⟨t, ht, _⟩ := waitLoop_trace_shape env rest (waitOne env i rs)
        rw [ht]
        have : Event.observed i (rs.mt.threadInfoArray i).threadExitCode ∈
            (waitOne env i rs).trace := by
          simp only [waitOne, hw]
          split <;> simp
        exact List.mem_append_left _ this
      · obtain ⟨hmt, hpid⟩ := waitOne_mt_pid env a rs
        exact ih _ hmem (by rw [hpid]; exact hw)

/-! ### Top-level decomposition of `SingleMethodExecute` -/

theorem SME_none (env : Env) (st : MultiThreader) (h : st.singleMethod = none) :
    SingleMethodExecute env st = ⟨.error .noMethodSet, st, []⟩ := by
  simp [SingleMethodExecute, h]

theorem SME_some (env : Env) (st : MultiThreader) (f : Nat)
    (hm : st.singleMethod = some f) :
    SingleMethodExecute env st =
      if (runSlot0 env f
            (spawnLoop env f
              (List.range' 1 (min env.globalMax st.numberOfThreads - 1))
              (initRS env st f))).2 then
        ⟨.error .processAborted,
          (abortWaitLoop (List.range' 1 (min env.globalMax st.numberOfThreads - 1))
            (runSlot0 env f
              (spawnLoop env f
                (List.range' 1 (min env.globalMax st.numberOfThreads - 1))
                (initRS env st f))).1).mt,
          (abortWaitLoop (List.range' 1 (min env.globalMax st.numberOfThreads - 1))
            (runSlot0 env f
              (spawnLoop env f
                (List.range' 1 (min env.globalMax st.numberOfThreads - 1))
                (initRS env st f))).1).trace⟩
      else if (waitLoop env
            (List.range' 1 (min env.globalMax st.numberOfThreads - 1))
            (runSlot0 env f
              (spawnLoop env f
                (List.range' 1 (min env.globalMax st.numberOfThreads - 1))
                (initRS env st f))).1).exceptionOccurred then
        ⟨.error (.aggregated
            (waitLoop env (List.range' 1 (min env.globalMax st.numberOfThreads - 1))
              (runSlot0 env f
                (spawnLoop env f
                  (List.range' 1 (min env.globalMax st.numberOfThreads - 1))
                  (initRS env st f))).1).exceptionDetails),
          (waitLoop env (List.range' 1 (min env.globalMax st.numberOfThreads - 1))
            (runSlot0 env f
              (spawnLoop env f
                (List.range' 1 (min env.globalMax st.numberOfThreads - 1))
                (initRS env st f))).1).mt,
          (waitLoop env (List.range' 1 (min env.globalMax st.numberOfThreads - 1))
            (runSlot0 env f
              (spawnLoop env f
                (List.range' 1 (min env.globalMax st.numberOfThreads - 1))
                (initRS env st f))).1).trace⟩
      else
        ⟨.ok (),
          (waitLoop env (List.range' 1 (min env.globalMax st.numberOfThreads - 1))
            (runSlot0 env f
              (spawnLoop env f
                (List.range' 1 (min env.globalMax st.numberOfThreads - 1))
                (initRS env st f))).1).mt,
          (waitLoop env (List.range' 1 (min env.globalMax st.numberOfThreads - 1))
            (runSlot0 env f
              (spawnLoop env f
                (List.range' 1 (min env.globalMax st.numberOfThreads - 1))
                (initRS env st f))).1).trace⟩ := by
  simp only [SingleMethodExecute, hm, initRS]

/-! ### Filter utilities over generated traces -/

theorem filter_waited_spawnBlocks (l : List Nat) :
    (l.flatMap spawnBlock).filter Event.isWaited = [] := by
  induction l with
  | nil => rfl
  | cons i rest ih => simp [spawnBlock, Event.isWaited, ih]

theorem filter_spawned_spawnBlocks (l : List Nat) :
    (l.flatMap spawnBlock).filter Event.isSpawned = l.map Event.spawned := by
  induction l with
  | nil => rfl
  | cons i rest ih => simp [spawnBlock, Event.isSpawned, ih]

theorem filter_attempt_spawnBlocks (l : List Nat) :
    (l.flatMap spawnBlock).filter Event.isSpawnAttempt = l.map Event.spawned := by
  induction l with
  | nil => rfl
  | cons i rest ih => simp [spawnBlock, Event.isSpawnAttempt, ih]

theorem filter_waited_map_waited (l : List Nat) :
    (l.map Event.waited).filter Event.isWaited = l.map Event.waited := by
  induction l with
  | nil => rfl
  | cons i rest ih => simp [Event.isWaited, ih]

theorem filter_spawned_map_waited (l : List Nat) :
    (l.map Event.waited).filter Event.isSpawned = [] := by
  induction l with
  | nil => rfl
  | cons i rest ih => simp [Event.isSpawned, ih]

theorem filter_attempt_map_waited (l : List Nat) :
    (l.map Event.waited).filter Event.isSpawnAttempt = [] := by
  induction l with
  | nil => rfl
  | cons i rest ih => simp [Event.isSpawnAttempt, ih]

theorem filter_invoked_map_waited (l : List Nat) :
    (l.map Event.waited).filter Event.isInvoked = [] := by
  induction l with
  | nil => rfl
  | cons i rest ih => simp [Event.isInvoked, ih]

theorem sublist_flatMap_of_mem {α β : Type} (g : α → List β) (l : List α)
    (i : α) (hi : i ∈ l) : List.Sublist (g i) (l.flatMap g) := by
  induction l with
  | nil => simp at hi
  | cons a rest ih =>
      rcases List.mem_cons.mp hi with rfl | hmem
      · simp only [List.flatMap_cons]
        exact List.sublist_append_left _ _
      · simp only [List.flatMap_cons]
        exact List.sublist_append_of_sublist_right (ih hmem)

/-! ### Claim theorems -/

/-- C6: If `SingleMethodExecute` is called with no function registered, it
raises the no-function-registered error synchronously, before configuring
any slot or spawning any thread: the trace is empty (zero spawns, zero
invocations) and the dispatcher state — slots included — is returned
entirely unmodified. -/
theorem C6_no_method_immediate_error (env : Env) (st : MultiThreader)
    (hm : st.singleMethod = none) :
    (SingleMethodExecute env st).result = .error .noMethodSet ∧
    (SingleMethodExecute env st).state = st ∧
    (SingleMethodExecute env st).trace = [] := by
  rw [SME_none env st hm]
  exact ⟨rfl, rfl, rfl⟩

theorem C6_witness :
    (SingleMethodExecute (envAllOk 4) (mkMT none none 3)).result =
        .error .noMethodSet ∧
    (SingleMethodExecute (envAllOk 4) (mkMT none none 3)).state =
        mkMT none none 3 ∧
    (SingleMethodExecute (envAllOk 4) (mkMT none none 3)).trace = [] :=
  C6_no_method_immediate_error (envAllOk 4) (mkMT none none 3) rfl

/-- C1: If the slot-0 invocation of the registered function raises the
distinguished abort condition, `SingleMethodExecute` waits on every
spawned thread's handle (the wait behaviour `env.waitRes` is universally
quantified, so any failure raised by a wait is swallowed) and then
re-raises exactly `processAborted` to its caller — not the generic
aggregated failure. -/
theorem C1_abort_drains_then_rethrows (env : Env) (st : MultiThreader)
    (f : Nat) (hm : st.singleMethod = some f)
    (ha : env.fnRes f 0 = .raiseAbort) :
    (SingleMethodExecute env st).result = .error .processAborted ∧
    (SingleMethodExecute env st).trace.filter Event.isWaited =
      (List.range' 1 (min env.globalMax st.numberOfThreads - 1)).map
        Event.waited := by
  rw [SME_some env st f hm]
  have hab := (runSlot0_snd env f
    (spawnLoop env f (List.range' 1 (min env.globalMax st.numberOfThreads - 1))
      (initRS env st f))).mpr ha
  rw [if_pos hab]
  refine ⟨rfl, ?_⟩
  simp only [abortWaitLoop_eq, runSlot0_trace]
  obtain ⟨t, ht, hf⟩ := spawnLoop_trace_shape env f
    (List.range' 1 (min env.globalMax st.numberOfThreads - 1))
    (initRS env st f)
  rw [ht]
  simp [List.filter_append, hf, filter_waited_map_waited, Event.isWaited, initRS]

theorem C1_witness :
    (SingleMethodExecute envAbort0 (mkMT (some 0) none 3)).result =
        .error .processAborted ∧
    (SingleMethodExecute envAbort0 (mkMT (some 0) none 3)).trace.filter
        Event.isWaited =
      (List.range' 1
          (min envAbort0.globalMax (mkMT (some 0) none 3).numberOfThreads - 1)).map
        Event.waited :=
  C1_abort_drains_then_rethrows envAbort0 (mkMT (some 0) none 3) 0 rfl (by decide)

/-- C2: In the non-abort path, before `SingleMethodExecute` returns
(normally or with the aggregated failure) it waits on every index
1..N-1 in ascending order, regardless of failures observed earlier in
the round (the spawn and wait behaviours are universally quantified),
and for every wait that returns normally the slot's final outcome is
inspected — no spawned thread is orphaned. -/
theorem C2_nonabort_waits_all_in_order (env : Env) (st : MultiThreader)
    (f : Nat) (hm : st.singleMethod = some f)
    (hna : env.fnRes f 0 ≠ .raiseAbort) :
    (SingleMethodExecute env st).trace.filter Event.isWaited =
      (List.range' 1 (min env.globalMax st.numberOfThreads - 1)).map
        Event.waited ∧
    (∀ i, 1 ≤ i → i < min env.globalMax st.numberOfThreads →
      env.waitRes i = .ok →
      ∃ o, Event.observed i o ∈ (SingleMethodExecute env st).trace) ∧
    ((SingleMethodExecute env st).result = .ok () ∨
      ∃ d, (SingleMethodExecute env st).result = .error (.aggregated d)) := by
  rw [SME_some env st f hm]
  set L := List.range' 1 (min env.globalMax st.numberOfThreads - 1) with hLdef
  set rs1 := spawnLoop env f L (initRS env st f) with hrs1
  have hab : (runSlot0 env f rs1).2 = false := by
    rw [← Bool.not_eq_true, runSlot0_snd]
    exact hna
  rw [if_neg (by simp [hab])]
  set rs3 := waitLoop env L (runSlot0 env f rs1).1 with hrs3
  obtain ⟨t, ht, hw, _, _, _⟩ := waitLoop_trace_shape env L (runSlot0 env f rs1).1
  have htrace : rs3.trace.filter Event.isWaited = L.map Event.waited := by
    rw [hrs3, ht, runSlot0_trace]
    obtain ⟨t0, ht0, hf0⟩ := spawnLoop_trace_shape env f L (initRS env st f)
    rw [← hrs1] at ht0
    rw [ht0]
    simp [initRS, List.filter_append, hf0, hw, Event.isWaited]
  have hobs : ∀ i, 1 ≤ i → i < min env.globalMax st.numberOfThreads →
      env.waitRes i = .ok → ∃ o, Event.observed i o ∈ rs3.trace := by
    intro i h1 h2 hok
    have hmem : i ∈ L := by
      rw [hLdef, List.mem_range'_1]
      omega
    refine waitLoop_observed env L (runSlot0 env f rs1).1 i hmem ?_
    unfold effWaitRes
    split <;> simp [hok]
  cases hocc : rs3.exceptionOccurred with
  | true =>
      rw [if_pos rfl]
      exact ⟨htrace, hobs, Or.inr ⟨rs3.exceptionDetails, rfl⟩⟩
  | false =>
      rw [if_neg (by simp)]
      exact ⟨htrace, hobs, Or.inl rfl⟩

theorem C2_witness :
    (SingleMethodExecute envSlot1Boom (mkMT (some 0) none 2)).trace.filter
        Event.isWaited =
      (List.range' 1
          (min envSlot1Boom.globalMax (mkMT (some 0) none 2).numberOfThreads
            - 1)).map Event.waited ∧
    (∀ i, 1 ≤ i →
      i < min envSlot1Boom.globalMax (mkMT (some 0) none 2).numberOfThreads →
      envSlot1Boom.waitRes i = .ok →
      ∃ o, Event.observed i o ∈
        (SingleMethodExecute envSlot1Boom (mkMT (some 0) none 2)).trace) ∧
    ((SingleMethodExecute envSlot1Boom (mkMT (some 0) none 2)).result =
        .ok () ∨
      ∃ d, (SingleMethodExecute envSlot1Boom (mkMT (some 0) none 2)).result =
        .error (.aggregated d)) :=
  C2_nonabort_waits_all_in_order envSlot1Boom (mkMT (some 0) none 2) 0 rfl
    (by decide)

/-- C10: Whenever a function is registered, `SingleMethodExecute` invokes
it for slot 0 on the calling thread, whatever the spawn, wait and user
function behaviours are — in particular even when spawning threw — and
only after that invocation does it perform the full wait pass; any
failure is raised only at return, after slot 0 has run and all waits
completed. -/
theorem C10_slot0_always_runs (env : Env) (st : MultiThreader) (f : Nat)
    (hm : st.singleMethod = some f) :
    Event.invoked 0 ∈ (SingleMethodExecute env st).trace ∧
    List.Sublist
      (Event.invoked 0 ::
        (List.range' 1 (min env.globalMax st.numberOfThreads - 1)).map
          Event.waited)
      (SingleMethodExecute env st).trace := by
  rw [SME_some env st f hm]
  set L := List.range' 1 (min env.globalMax st.numberOfThreads - 1) with hLdef
  set rs1 := spawnLoop env f L (initRS env st f) with hrs1
  have key : List.Sublist (Event.invoked 0 :: L.map Event.waited)
      (if (runSlot0 env f rs1).2 then
        (⟨.error .processAborted, (abortWaitLoop L (runSlot0 env f rs1).1).mt,
          (abortWaitLoop L (runSlot0 env f rs1).1).trace⟩ : ExecResult)
      else if (waitLoop env L (runSlot0 env f rs1).1).exceptionOccurred then
        ⟨.error (.aggregated
            (waitLoop env L (runSlot0 env f rs1).1).exceptionDetails),
          (waitLoop env L (runSlot0 env f rs1).1).mt,
          (waitLoop env L (runSlot0 env f rs1).1).trace⟩
      else
        ⟨.ok (), (waitLoop env L (runSlot0 env f rs1).1).mt,
          (waitLoop env L (runSlot0 env f rs1).1).trace⟩).trace := by
    cases habt : (runSlot0 env f rs1).2 with
    | true =>
        rw [if_pos rfl]
        show List.Sublist (Event.invoked 0 :: L.map Event.waited)
          (abortWaitLoop L (runSlot0 env f rs1).1).trace
        rw [abortWaitLoop_eq, runSlot0_trace]
        show List.Sublist (Event.invoked 0 :: L.map Event.waited)
          ((rs1.trace ++ [Event.configured 0, Event.invoked 0]) ++
            L.map Event.waited)
        rw [List.append_assoc]
        refine List.sublist_append_of_sublist_right ?_
        show List.Sublist (Event.invoked 0 :: L.map Event.waited)
          (Event.configured 0 :: Event.invoked 0 :: L.map Event.waited)
        exact List.sublist_cons_self _ _
    | false =>
        rw [if_neg (by simp)]
        obtain ⟨t, ht, hw, _, _, _⟩ :=
          waitLoop_trace_shape env L (runSlot0 env f rs1).1
        have hsub : List.Sublist (L.map Event.waited) t := by
          rw [← hw]
          exact List.filter_sublist t
        cases hocc : (waitLoop env L (runSlot0 env f rs1).1).exceptionOccurred with
        | true =>
            rw [if_pos rfl]
            show List.Sublist (Event.invoked 0 :: L.map Event.waited)
              (waitLoop env L (runSlot0 env f rs1).1).trace
            rw [ht, runSlot0_trace, List.append_assoc]
            refine List.sublist_append_of_sublist_right ?_
            exact (hsub.cons₂ (Event.invoked 0)).cons (Event.configured 0)
        | false =>
            rw [if_neg (by simp)]
            show List.Sublist (Event.invoked 0 :: L.map Event.waited)
              (waitLoop env L (runSlot0 env f rs1).1).trace
            rw [ht, runSlot0_trace, List.append_assoc]
            refine List.sublist_append_of_sublist_right ?_
            exact (hsub.cons₂ (Event.invoked 0)).cons (Event.configured 0)
  exact ⟨key.subset (List.mem_cons_self _ _), key⟩

theorem C10_witness :
    Event.invoked 0 ∈
      (SingleMethodExecute envSpawn1Fails (mkMT (some 0) none 3)).trace ∧
    List.Sublist
      (Event.invoked 0 ::
        (List.range' 1
            (min envSpawn1Fails.globalMax (mkMT (some 0) none 3).numberOfThreads
              - 1)).map Event.waited)
      (SingleMethodExecute envSpawn1Fails (mkMT (some 0) none 3)).trace :=
  C10_slot0_always_runs envSpawn1Fails (mkMT (some 0) none 3) 0 rfl

/-- C5: For every dispatch round the thread count used is
N = min(requested, global ceiling) — clamped down, never up: the member
thread count at return equals that min, and (with a willing backend)
exactly the indices 1..N-1 are spawned.  The witness instantiates
requested = 100 under ceiling 4 and observes exactly 3 spawns. -/
theorem C5_thread_count_clamped (env : Env) (st : MultiThreader) (f : Nat)
    (hm : st.singleMethod = some f) (hspawn : ∀ i, env.spawnRes i = .ok) :
    (SingleMethodExecute env st).state.numberOfThreads =
      min env.globalMax st.numberOfThreads ∧
    (SingleMethodExecute env st).trace.filter Event.isSpawned =
      (List.range' 1 (min env.globalMax st.numberOfThreads - 1)).map
        Event.spawned := by
  rw [SME_some env st f hm]
  set L := List.range' 1 (min env.globalMax st.numberOfThreads - 1) with hLdef
  set rs1 := spawnLoop env f L (initRS env st f) with hrs1
  obtain ⟨ht1, _, _, _, _⟩ :=
    spawnLoop_ok_eq env f L (initRS env st f) (fun k _ => hspawn k)
  rw [← hrs1] at ht1
  have hmeta := spawnLoop_meta env f L (initRS env st f)
  rw [← hrs1] at hmeta
  have hn2 : (runSlot0 env f rs1).1.mt.numberOfThreads =
      min env.globalMax st.numberOfThreads := by
    rw [runSlot0_mt]
    exact hmeta.2.2
  cases habt : (runSlot0 env f rs1).2 with
  | true =>
      rw [if_pos rfl]
      constructor
      · show (abortWaitLoop L (runSlot0 env f rs1).1).mt.numberOfThreads = _
        rw [abortWaitLoop_eq]
        exact hn2
      · show (abortWaitLoop L (runSlot0 env f rs1).1).trace.filter
          Event.isSpawned = _
        rw [abortWaitLoop_eq]
        show ((runSlot0 env f rs1).1.trace ++ L.map Event.waited).filter
          Event.isSpawned = _
        rw [runSlot0_trace, ht1]
        simp [initRS, List.filter_append, filter_spawned_spawnBlocks,
          filter_spawned_map_waited, Event.isSpawned]
  | false =>
      rw [if_neg (by simp)]
      obtain ⟨t, ht, _, hs, _, _⟩ := waitLoop_trace_shape env L (runSlot0 env f rs1).1
      have hmt3 := (waitLoop_mt_pid env L (runSlot0 env f rs1).1).1
      have htr : (waitLoop env L (runSlot0 env f rs1).1).trace.filter
          Event.isSpawned = L.map Event.spawned := by
        rw [ht, runSlot0_trace, ht1]
        simp [initRS, List.filter_append, filter_spawned_spawnBlocks, hs,
          Event.isSpawned]
      cases hocc : (waitLoop env L (runSlot0 env f rs1).1).exceptionOccurred with
      | true =>
          rw [if_pos rfl]
          exact ⟨by rw [show (waitLoop env L (runSlot0 env f rs1).1).mt =
            (runSlot0 env f rs1).1.mt from hmt3]; exact hn2, htr⟩
      | false =>
          rw [if_neg (by simp)]
          exact ⟨by rw [show (waitLoop env L (runSlot0 env f rs1).1).mt =
            (runSlot0 env f rs1).1.mt from hmt3]; exact hn2, htr⟩

theorem C5_witness :
    (SingleMethodExecute (envAllOk 4) (mkMT (some 0) none 100)).state.numberOfThreads
        = 4 ∧
    ((SingleMethodExecute (envAllOk 4) (mkMT (some 0) none 100)).trace.filter
        Event.isSpawned).length = 3 := by
  have h := C5_thread_count_clamped (envAllOk 4) (mkMT (some 0) none 100) 0 rfl
    (fun _ => rfl)
  exact ⟨by rw [h.1]; decide, by rw [h.2]; rfl⟩

/-- C7 counterexample: state written during one `SingleMethodExecute`
call survives into the next one.  The first round (requested 100,
ceiling 4) destructively clamps the member thread count to 4; a second
round under a raised ceiling of 16 therefore spawns only 3 threads,
whereas a fresh dispatcher with requested 100 under ceiling 16 spawns
15 — so a second round's outcomes do not reflect only the second
round's thread count. -/
theorem C7_counterexample :
    (SingleMethodExecute (envAllOk 4) (mkMT (some 0) none 100)).state.numberOfThreads
        = 4 ∧
    (mkMT (some 0) none 100).numberOfThreads = 100 ∧
    ((SingleMethodExecute (envAllOk 16)
        (SingleMethodExecute (envAllOk 4)
          (mkMT (some 0) none 100)).state).trace.filter
      Event.isSpawned).length = 3 ∧
    ((SingleMethodExecute (envAllOk 16) (mkMT (some 0) none 100)).trace.filter
      Event.isSpawned).length = 15 := by
  refine ⟨?_, rfl, ?_, ?_⟩ <;> rfl

/-- C7 amended: a dispatch round leaves no state behind apart from slot
reuse and the clamped thread count: the registration (function and
data) is returned unchanged, but `m_NumberOfThreads` is destructively
overwritten with min(requested, ceiling) and that value persists into
subsequent rounds. -/
theorem C7_amended_residual_state (env : Env) (st : MultiThreader) (f : Nat)
    (hm : st.singleMethod = some f) :
    (SingleMethodExecute env st).state.singleMethod = st.singleMethod ∧
    (SingleMethodExecute env st).state.singleData = st.singleData ∧
    (SingleMethodExecute env st).state.numberOfThreads =
      min env.globalMax st.numberOfThreads := by
  rw [SME_some env st f hm]
  set L := List.range' 1 (min env.globalMax st.numberOfThreads - 1) with hLdef
  set rs1 := spawnLoop env f L (initRS env st f) with hrs1
  have hmeta := spawnLoop_meta env f L (initRS env st f)
  rw [← hrs1] at hmeta
  have h2 : (runSlot0 env f rs1).1.mt.singleMethod = st.singleMethod ∧
      (runSlot0 env f rs1).1.mt.singleData = st.singleData ∧
      (runSlot0 env f rs1).1.mt.numberOfThreads =
        min env.globalMax st.numberOfThreads := by
    rw [runSlot0_mt]
    refine ⟨?_, ?_, ?_⟩
    · show rs1.mt.singleMethod = st.singleMethod
      rw [hmeta.1]
      exact hm.symm
    · exact hmeta.2.1
    · exact hmeta.2.2
  cases habt : (runSlot0 env f rs1).2 with
  | true =>
      rw [if_pos rfl]
      show (abortWaitLoop L (runSlot0 env f rs1).1).mt.singleMethod = _ ∧
        (abortWaitLoop L (runSlot0 env f rs1).1).mt.singleData = _ ∧
        (abortWaitLoop L (runSlot0 env f rs1).1).mt.numberOfThreads = _
      rw [abortWaitLoop_eq]
      exact h2
  | false =>
      rw [if_neg (by simp)]
      have hmt3 := (waitLoop_mt_pid env L (runSlot0 env f rs1).1).1
      cases hocc : (waitLoop env L (runSlot0 env f rs1).1).exceptionOccurred with
      | true =>
          rw [if_pos rfl]
          show (waitLoop env L (runSlot0 env f rs1).1).mt.singleMethod = _ ∧
            (waitLoop env L (runSlot0 env f rs1).1).mt.singleData = _ ∧
            (waitLoop env L (runSlot0 env f rs1).1).mt.numberOfThreads = _
          rw [hmt3]
          exact h2
      | false =>
          rw [if_neg (by simp)]
          show (waitLoop env L (runSlot0 env f rs1).1).mt.singleMethod = _ ∧
            (waitLoop env L (runSlot0 env f rs1).1).mt.singleData = _ ∧
            (waitLoop env L (runSlot0 env f rs1).1).mt.numberOfThreads = _
          rw [hmt3]
          exact h2

theorem C7_witness :
    (SingleMethodExecute (envAllOk 4) (mkMT (some 5) (some 9) 100)).state.singleMethod
        = (mkMT (some 5) (some 9) 100).singleMethod ∧
    (SingleMethodExecute (envAllOk 4) (mkMT (some 5) (some 9) 100)).state.singleData
        = (mkMT (some 5) (some 9) 100).singleData ∧
    (SingleMethodExecute (envAllOk 4) (mkMT (some 5) (some 9) 100)).state.numberOfThreads
        = min (envAllOk 4).globalMax (mkMT (some 5) (some 9) 100).numberOfThreads :=
  C7_amended_residual_state (envAllOk 4) (mkMT (some 5) (some 9) 100) 5 rfl

/-- C9: For every requested count within the global ceiling, a round
with a well-behaved (non-throwing) function and a reliable backend
returns cleanly having spawned exactly N-1 backend threads; when N = 1
the trace is exactly one slot-0 configuration and one invocation on the
calling thread — no spawn and no wait. -/
theorem C9_clean_round (env : Env) (st : MultiThreader) (f : Nat)
    (hm : st.singleMethod = some f)
    (hle : st.numberOfThreads ≤ env.globalMax)
    (hfn : ∀ i, env.fnRes f i = .ok)
    (hspawn : ∀ i, env.spawnRes i = .ok)
    (hwait : ∀ i, env.waitRes i = .ok) :
    (SingleMethodExecute env st).result = .ok () ∧
    ((SingleMethodExecute env st).trace.filter Event.isSpawned).length =
      st.numberOfThreads - 1 ∧
    (st.numberOfThreads = 1 →
      (SingleMethodExecute env st).trace =
        [Event.configured 0, Event.invoked 0]) := by
  have hmin : min env.globalMax st.numberOfThreads = st.numberOfThreads :=
    min_eq_right hle
  have hone : st.numberOfThreads = 1 →
      (SingleMethodExecute env st).trace =
        [Event.configured 0, Event.invoked 0] := by
    intro h1
    rw [SME_some env st f hm]
    have hL : List.range' 1 (min env.globalMax st.numberOfThreads - 1) = [] := by
      rw [hmin, h1]
      decide
    rw [hL]
    rw [show spawnLoop env f [] (initRS env st f) = initRS env st f from rfl]
    have habt : (runSlot0 env f (initRS env st f)).2 = false := by
      rw [← Bool.not_eq_true, runSlot0_snd, hfn 0]
      simp
    rw [if_neg (by simp [habt])]
    rw [show waitLoop env [] (runSlot0 env f (initRS env st f)).1 =
      (runSlot0 env f (initRS env st f)).1 from rfl]
    have hocc : (runSlot0 env f (initRS env st f)).1.exceptionOccurred = false :=
      (runSlot0_ok_flags env f (initRS env st f) (hfn 0)).1
    rw [if_neg (by simp [hocc])]
    show (runSlot0 env f (initRS env st f)).1.trace = _
    rw [runSlot0_trace]
    rfl
  refine ⟨?_, ?_, hone⟩ <;> rw [SME_some env st f hm]
  all_goals
    set L := List.range' 1 (min env.globalMax st.numberOfThreads - 1) with hLdef
    set rs1 := spawnLoop env f L (initRS env st f) with hrs1
    obtain ⟨ht1, ho1, hd1, hp1, hs1⟩ :=
      spawnLoop_ok_eq env f L (initRS env st f) (fun k _ => hspawn k)
    rw [← hrs1] at ht1 ho1 hd1 hp1 hs1
    have habt : (runSlot0 env f rs1).2 = false := by
      rw [← Bool.not_eq_true, runSlot0_snd, hfn 0]
      simp
    have hocc2 : (runSlot0 env f rs1).1.exceptionOccurred = false := by
      rw [(runSlot0_ok_flags env f rs1 (hfn 0)).1, ho1]
      rfl
    have hclean : ∀ i ∈ L,
        effWaitRes env (runSlot0 env f rs1).1.processId i = .ok ∧
        ((runSlot0 env f rs1).1.mt.threadInfoArray i).threadExitCode =
          .success := by
      intro i hi
      have hge : 1 ≤ i := by
        rw [hLdef, List.mem_range'_1] at hi
        exact hi.1
      constructor
      · unfold effWaitRes
        rw [runSlot0_pid, hp1 i]
        simp [hi, hwait i]
      · rw [runSlot0_mt]
        show (setSlot rs1.mt.threadInfoArray 0 _ i).threadExitCode = _
        rw [setSlot_other _ _ _ _ (by omega : i ≠ 0)]
        rw [spawnLoop_ok_slot env f L (initRS env st f) (fun k _ => hspawn k)
          (by rw [hLdef]; exact List.nodup_range' 1 _) i hi]
        rw [hfn i]
        exact runProxy_exitCode_ok _
    obtain ⟨ho3, _⟩ := waitLoop_clean env L (runSlot0 env f rs1).1 hclean
    have hocc3 : (waitLoop env L (runSlot0 env f rs1).1).exceptionOccurred =
        false := ho3.trans hocc2
    rw [if_neg (by simp [habt]), if_neg (by simp [hocc3])]
    try rfl
  show ((waitLoop env L (runSlot0 env f rs1).1).trace.filter
    Event.isSpawned).length = st.numberOfThreads - 1
  obtain ⟨t, ht, _, hs, _, _⟩ := waitLoop_trace_shape env L (runSlot0 env f rs1).1
  rw [ht, runSlot0_trace, ht1]
  simp [initRS, List.filter_append, filter_spawned_spawnBlocks, hs,
    Event.isSpawned, hLdef, hmin]

theorem C9_witness :
    (SingleMethodExecute (envAllOk 4) (mkMT (some 0) (some 7) 1)).result =
        .ok () ∧
    ((SingleMethodExecute (envAllOk 4) (mkMT (some 0) (some 7) 1)).trace.filter
        Event.isSpawned).length = (mkMT (some 0) (some 7) 1).numberOfThreads - 1 ∧
    ((mkMT (some 0) (some 7) 1).numberOfThreads = 1 →
      (SingleMethodExecute (envAllOk 4) (mkMT (some 0) (some 7) 1)).trace =
        [Event.configured 0, Event.invoked 0]) :=
  C9_clean_round (envAllOk 4) (mkMT (some 0) (some 7) 1) 0 rfl (by decide)
    (fun _ => rfl) (fun _ => rfl) (fun _ => rfl)

/-- C8: For every round with clamped count N and a willing backend,
each slot i in 0..N-1 is configured with the registered user data and
with the same thread count N before its invocation: the slot's fields
at return carry exactly those values, and the trace contains the
configuration event before the invocation event for every slot. -/
theorem C8_uniform_slot_config (env : Env) (st : MultiThreader) (f : Nat)
    (hm : st.singleMethod = some f) (hspawn : ∀ i, env.spawnRes i = .ok) :
    ∀ i, i < min env.globalMax st.numberOfThreads →
      ((SingleMethodExecute env st).state.threadInfoArray i).userData =
        st.singleData ∧
      ((SingleMethodExecute env st).state.threadInfoArray i).numberOfThreads =
        min env.globalMax st.numberOfThreads ∧
      List.Sublist [Event.configured i, Event.invoked i]
        (SingleMethodExecute env st).trace := by
  rw [SME_some env st f hm]
  set L := List.range' 1 (min env.globalMax st.numberOfThreads - 1) with hLdef
  set rs1 := spawnLoop env f L (initRS env st f) with hrs1
  obtain ⟨ht1, ho1, hd1, hp1, hs1⟩ :=
    spawnLoop_ok_eq env f L (initRS env st f) (fun k _ => hspawn k)
  rw [← hrs1] at ht1 ho1 hd1 hp1 hs1
  have hmeta := spawnLoop_meta env f L (initRS env st f)
  rw [← hrs1] at hmeta
  have hsd : rs1.mt.singleData = st.singleData := hmeta.2.1
  have hnt : rs1.mt.numberOfThreads = min env.globalMax st.numberOfThreads :=
    hmeta.2.2
  have hmem : ∀ i, 1 ≤ i → i < min env.globalMax st.numberOfThreads →
      i ∈ L := by
    intro i h1 h2
    rw [hLdef, List.mem_range'_1]
    omega
  have hslot : ∀ i, i < min env.globalMax st.numberOfThreads →
      ((runSlot0 env f rs1).1.mt.threadInfoArray i).userData = st.singleData ∧
      ((runSlot0 env f rs1).1.mt.threadInfoArray i).numberOfThreads =
        min env.globalMax st.numberOfThreads := by
    intro i hi
    rw [runSlot0_mt]
    show ((setSlot rs1.mt.threadInfoArray 0 _ i).userData = _) ∧
      ((setSlot rs1.mt.threadInfoArray 0 _ i).numberOfThreads = _)
    by_cases h0 : i = 0
    · subst h0
      rw [setSlot_same]
      exact ⟨hsd, hnt⟩
    · rw [setSlot_other _ _ _ _ h0]
      rw [spawnLoop_ok_slot env f L (initRS env st f) (fun k _ => hspawn k)
        (by rw [hLdef]; exact List.nodup_range' 1 _) i
        (hmem i (by omega) hi)]
      rw [runProxy_userData, runProxy_numberOfThreads]
      exact ⟨rfl, rfl⟩
  have hsubmid : ∀ i, i < min env.globalMax st.numberOfThreads →
      List.Sublist [Event.configured i, Event.invoked i]
        (L.flatMap spawnBlock ++ [Event.configured 0, Event.invoked 0]) := by
    intro i hi
    by_cases h0 : i = 0
    · subst h0
      exact List.sublist_append_right _ _
    · refine List.sublist_append_of_sublist_left ?_
      refine (?_ : List.Sublist [Event.configured i, Event.invoked i]
        (spawnBlock i)).trans
        (sublist_flatMap_of_mem spawnBlock L i (hmem i (by omega) hi))
      exact (List.sublist_cons_self (Event.spawned i) _).cons₂ (Event.configured i)
  have htr2 : (runSlot0 env f rs1).1.trace =
      L.flatMap spawnBlock ++ [Event.configured 0, Event.invoked 0] := by
    rw [runSlot0_trace, ht1]
    rfl
  cases habt : (runSlot0 env f rs1).2 with
  | true =>
      rw [if_pos rfl]
      intro i hi
      refine ⟨?_, ?_, ?_⟩
      · show ((abortWaitLoop L (runSlot0 env f rs1).1).mt.threadInfoArray i).userData = _
        rw [abortWaitLoop_eq]
        exact (hslot i hi).1
      · show ((abortWaitLoop L (runSlot0 env f rs1).1).mt.threadInfoArray i).numberOfThreads = _
        rw [abortWaitLoop_eq]
        exact (hslot i hi).2
      · show List.Sublist _ (abortWaitLoop L (runSlot0 env f rs1).1).trace
        rw [abortWaitLoop_eq]
        show List.Sublist _ ((runSlot0 env f rs1).1.trace ++ L.map Event.waited)
        rw [htr2]
        exact List.sublist_append_of_sublist_left (hsubmid i hi)
  | false =>
      rw [if_neg (by simp)]
      obtain ⟨t, ht, _, _, _, _⟩ := waitLoop_trace_shape env L (runSlot0 env f rs1).1
      have hmt3 := (waitLoop_mt_pid env L (runSlot0 env f rs1).1).1
      have hcore : ∀ i, i < min env.globalMax st.numberOfThreads →
          ((waitLoop env L (runSlot0 env f rs1).1).mt.threadInfoArray i).userData =
            st.singleData ∧
          ((waitLoop env L (runSlot0 env f rs1).1).mt.threadInfoArray i).numberOfThreads =
            min env.globalMax st.numberOfThreads ∧
          List.Sublist [Event.configured i, Event.invoked i]
            (waitLoop env L (runSlot0 env f rs1).1).trace := by
        intro i hi
        refine ⟨by rw [hmt3]; exact (hslot i hi).1,
          by rw [hmt3]; exact (hslot i hi).2, ?_⟩
        rw [ht, htr2]
        exact List.sublist_append_of_sublist_left (hsubmid i hi)
      cases hocc : (waitLoop env L (runSlot0 env f rs1).1).exceptionOccurred with
      | true => rw [if_pos rfl]; exact hcore
      | false => rw [if_neg (by simp)]; exact hcore

theorem C8_witness :
    ((SingleMethodExecute (envAllOk 4) (mkMT (some 0) (some 7) 2)).state.threadInfoArray
        1).userData = (mkMT (some 0) (some 7) 2).singleData ∧
    ((SingleMethodExecute (envAllOk 4) (mkMT (some 0) (some 7) 2)).state.threadInfoArray
        1).numberOfThreads =
      min (envAllOk 4).globalMax (mkMT (some 0) (some 7) 2).numberOfThreads ∧
    List.Sublist [Event.configured 1, Event.invoked 1]
      (SingleMethodExecute (envAllOk 4) (mkMT (some 0) (some 7) 2)).trace :=
  C8_uniform_slot_config (envAllOk 4) (mkMT (some 0) (some 7) 2) 0 rfl
    (fun _ => rfl) 1 (by decide)

/-- C3 counterexample: with clamped count 3, a backend that refuses the
spawn for index 1 but would accept the spawn for index 2, the round
never attempts the spawn for index 2 — neither a spawn nor a
spawn-failure event for index 2 appears — because the single
`try`/`catch` around the spawn loop abandons it at the first throwing
spawn.  This falsifies "spawning is attempted for every index i in
1..N-1 even if the spawn for some earlier index failed". -/
theorem C3_counterexample :
    min envSpawn1Fails.globalMax (mkMT (some 0) none 3).numberOfThreads = 3 ∧
    envSpawn1Fails.spawnRes 2 = .ok ∧
    Event.spawned 2 ∉
      (SingleMethodExecute envSpawn1Fails (mkMT (some 0) none 3)).trace ∧
    Event.spawnFailed 2 ∉
      (SingleMethodExecute envSpawn1Fails (mkMT (some 0) none 3)).trace := by
  decide

/-- C3 amended: a spawn failure is recorded as a dispatch-level fault
contributing to the end-of-round aggregated failure, and already-issued
spawns are still waited on (the wait loop covers all of 1..N-1), but it
terminates the spawn loop: at the first failing index j the attempts
are exactly 1..j-1 (spawned) followed by the failure at j, and no later
index is attempted. -/
theorem C3_amended_spawn_loop_stops (env : Env) (st : MultiThreader)
    (f j : Nat) (hm : st.singleMethod = some f) (hj1 : 1 ≤ j)
    (hjn : j < min env.globalMax st.numberOfThreads)
    (hpre : ∀ k, 1 ≤ k → k < j → env.spawnRes k = .ok)
    (hj : env.spawnRes j ≠ .ok) (hna : env.fnRes f 0 ≠ .raiseAbort) :
    (SingleMethodExecute env st).trace.filter Event.isSpawnAttempt =
      ((List.range' 1 (j - 1)).map Event.spawned) ++ [Event.spawnFailed j] ∧
    (∃ d, (SingleMethodExecute env st).result = .error (.aggregated d)) ∧
    (SingleMethodExecute env st).trace.filter Event.isWaited =
      (List.range' 1 (min env.globalMax st.numberOfThreads - 1)).map
        Event.waited := by
  rw [SME_some env st f hm]
  set n := min env.globalMax st.numberOfThreads with hn
  set L := List.range' 1 (n - 1) with hLdef
  have hsplit : L =
      List.range' 1 (j - 1) ++ (j :: List.range' (j + 1) (n - j - 1)) := by
    rw [hLdef]
    have h1 := List.range'_append_1 1 (j - 1) (n - 1 - (j - 1))
    have e1 : 1 + (j - 1) = j := by omega
    have e2 : (n - 1 - (j - 1)) + (j - 1) = n - 1 := by omega
    have e3 : n - 1 - (j - 1) = (n - j - 1) + 1 := by omega
    rw [e1, e2] at h1
    rw [← h1, e3, List.range'_succ]
  set rs0 := initRS env st f with hrs0
  have hA : ∀ k ∈ List.range' 1 (j - 1), env.spawnRes k = .ok := by
    intro k hk
    rw [List.mem_range'_1] at hk
    exact hpre k hk.1 (by omega)
  have hloop : spawnLoop env f L rs0 =
      (spawnOne env f j (spawnLoop env f (List.range' 1 (j - 1)) rs0)).1 := by
    rw [hsplit, spawnLoop_append_ok env f _ _ rs0 hA,
      spawnLoop_cons_fail env f j _ _ hj]
  obtain ⟨htA, hoA, hdA, _, _⟩ :=
    spawnLoop_ok_eq env f (List.range' 1 (j - 1)) rs0 hA
  obtain ⟨_, _, _, hfo, hft⟩ :=
    spawnOne_fail env f j (spawnLoop env f (List.range' 1 (j - 1)) rs0) hj
  have htr1 : (spawnLoop env f L rs0).trace =
      ((List.range' 1 (j - 1)).flatMap spawnBlock) ++
        [Event.configured j, Event.spawnFailed j] := by
    rw [hloop, hft, htA]
    simp [hrs0, initRS]
  have hocc1 : (spawnLoop env f L rs0).exceptionOccurred = true := by
    rw [hloop]
    exact hfo
  have habt : (runSlot0 env f (spawnLoop env f L rs0)).2 = false := by
    rw [← Bool.not_eq_true, runSlot0_snd]
    exact hna
  rw [if_neg (by simp [habt])]
  have hocc3 : (waitLoop env L
      (runSlot0 env f (spawnLoop env f L rs0)).1).exceptionOccurred = true :=
    waitLoop_occurred_mono env L _ (runSlot0_occurred_mono env f _ hocc1)
  rw [if_pos hocc3]
  obtain ⟨t, ht, hw, hs, hat, hv⟩ :=
    waitLoop_trace_shape env L (runSlot0 env f (spawnLoop env f L rs0)).1
  refine ⟨?_, ⟨_, rfl⟩, ?_⟩
  · show (waitLoop env L
        (runSlot0 env f (spawnLoop env f L rs0)).1).trace.filter
      Event.isSpawnAttempt = _
    rw [ht, runSlot0_trace, htr1]
    simp [List.filter_append, filter_attempt_spawnBlocks, hat,
      Event.isSpawnAttempt]
  · show (waitLoop env L
        (runSlot0 env f (spawnLoop env f L rs0)).1).trace.filter
      Event.isWaited = _
    rw [ht, runSlot0_trace, htr1]
    simp [List.filter_append, filter_waited_spawnBlocks, hw, Event.isWaited]

theorem C3_witness :
    (SingleMethodExecute envSpawn1Fails (mkMT (some 0) none 3)).trace.filter
        Event.isSpawnAttempt =
      ((List.range' 1 (1 - 1)).map Event.spawned) ++ [Event.spawnFailed 1] ∧
    (∃ d, (SingleMethodExecute envSpawn1Fails (mkMT (some 0) none 3)).result =
      .error (.aggregated d)) ∧
    (SingleMethodExecute envSpawn1Fails (mkMT (some 0) none 3)).trace.filter
        Event.isWaited =
      (List.range' 1
          (min envSpawn1Fails.globalMax (mkMT (some 0) none 3).numberOfThreads
            - 1)).map Event.waited :=
  C3_amended_spawn_loop_stops envSpawn1Fails (mkMT (some 0) none 3) 0 1 rfl
    (by decide) (by decide) (fun k h1 h2 => by omega) (by decide) (by decide)

/-- C4 counterexample: slot 1's function fails with message "boom" and
every other slot succeeds, yet the aggregated failure's retained details
are empty — the raised message is the generic sentence, not "boom" —
even though the (spec-modelled) supervisor wrapper did record "boom"
into slot 1: the wait loop of `SingleMethodExecute` inspects only the
slot's exit code, never its message. -/
theorem C4_counterexample :
    (SingleMethodExecute envSlot1Boom (mkMT (some 0) none 2)).result =
        .error (.aggregated "") ∧
    ((SingleMethodExecute envSlot1Boom
        (mkMT (some 0) none 2)).state.threadInfoArray 1).exitMessage =
      some "boom" ∧
    ExecErr.message (.aggregated "") ≠ "boom" := by
  refine ⟨rfl, rfl, by decide⟩

/-- C4 amended: the retained details of the aggregated failure come only
from exceptions observed on the dispatching thread (slot 0's own
exception, a spawn-loop exception, or a wait exception), last-writer-
wins among those.  If slot 0's function fails with message `m` and every
other interaction succeeds, the retained details are `m`; if only a
spawned slot's function fails (slot 0 succeeding, backend reliable), the
aggregated failure carries empty details — the failing slot's message is
not retained. -/
theorem C4_amended_message_source (env : Env) (st : MultiThreader) (f : Nat)
    (m : String) (hm : st.singleMethod = some f)
    (hspawn : ∀ i, env.spawnRes i = .ok) (hwait : ∀ i, env.waitRes i = .ok) :
    (env.fnRes f 0 = .raiseStd m → (∀ i, 1 ≤ i → env.fnRes f i = .ok) →
      (SingleMethodExecute env st).result = .error (.aggregated m)) ∧
    (env.fnRes f 0 = .ok →
      (∃ i, 1 ≤ i ∧ i < min env.globalMax st.numberOfThreads ∧
        env.fnRes f i ≠ .ok) →
      (SingleMethodExecute env st).result = .error (.aggregated "")) := by
  rw [SME_some env st f hm]
  set L := List.range' 1 (min env.globalMax st.numberOfThreads - 1) with hLdef
  set rs1 := spawnLoop env f L (initRS env st f) with hrs1
  obtain ⟨ht1, ho1, hd1, hp1, hs1⟩ :=
    spawnLoop_ok_eq env f L (initRS env st f) (fun k _ => hspawn k)
  rw [← hrs1] at ht1 ho1 hd1 hp1 hs1
  have hpid2 : ∀ i ∈ L, effWaitRes env (runSlot0 env f rs1).1.processId i = .ok := by
    intro i hi
    have hge : 1 ≤ i := by
      rw [hLdef, List.mem_range'_1] at hi
      exact hi.1
    unfold effWaitRes
    rw [runSlot0_pid, hp1 i]
    simp [hi, hwait i]
  have hslot2 : ∀ i ∈ L, (runSlot0 env f rs1).1.mt.threadInfoArray i =
      runProxy (env.fnRes f i) (cfgSlot (initRS env st f).mt f i) := by
    intro i hi
    have hge : 1 ≤ i := by
      rw [hLdef, List.mem_range'_1] at hi
      exact hi.1
    rw [runSlot0_mt]
    show setSlot rs1.mt.threadInfoArray 0 _ i = _
    rw [setSlot_other _ _ _ _ (by omega : i ≠ 0)]
    exact spawnLoop_ok_slot env f L (initRS env st f) (fun k _ => hspawn k)
      (by rw [hLdef]; exact List.nodup_range' 1 _) i hi
  constructor
  · intro h0 hrest
    have habt : (runSlot0 env f rs1).2 = false := by
      rw [← Bool.not_eq_true, runSlot0_snd, h0]
      simp
    obtain ⟨ho2, hd2⟩ := runSlot0_std_flags env f rs1 m h0
    have hclean : ∀ i ∈ L,
        effWaitRes env (runSlot0 env f rs1).1.processId i = .ok ∧
        ((runSlot0 env f rs1).1.mt.threadInfoArray i).threadExitCode =
          .success := by
      intro i hi
      have hge : 1 ≤ i := by
        rw [hLdef, List.mem_range'_1] at hi
        exact hi.1
      refine ⟨hpid2 i hi, ?_⟩
      rw [hslot2 i hi, hrest i hge]
      exact runProxy_exitCode_ok _
    obtain ⟨ho3, hd3⟩ := waitLoop_clean env L (runSlot0 env f rs1).1 hclean
    have hocc3 : (waitLoop env L (runSlot0 env f rs1).1).exceptionOccurred =
        true := ho3.trans ho2
    rw [if_neg (by simp [habt]), if_pos hocc3]
    show Except.error (ExecErr.aggregated
      (waitLoop env L (runSlot0 env f rs1).1).exceptionDetails) = _
    rw [hd3, hd2]
  · intro h0 ⟨i0, hge0, hlt0, hbad⟩
    have habt : (runSlot0 env f rs1).2 = false := by
      rw [← Bool.not_eq_true, runSlot0_snd, h0]
      simp
    obtain ⟨ho2, hd2⟩ := runSlot0_ok_flags env f rs1 h0
    have hmem0 : i0 ∈ L := by
      rw [hLdef, List.mem_range'_1]
      omega
    have hocc3 : (waitLoop env L (runSlot0 env f rs1).1).exceptionOccurred =
        true := by
      refine waitLoop_occurred_bad env L (runSlot0 env f rs1).1 i0 hmem0
        (hpid2 i0 hmem0) ?_
      rw [hslot2 i0 hmem0]
      exact runProxy_exitCode_ne_success _ _ hbad
    have hd3 := waitLoop_details_ok env L (runSlot0 env f rs1).1 hpid2
    rw [if_neg (by simp [habt]), if_pos hocc3]
    show Except.error (ExecErr.aggregated
      (waitLoop env L (runSlot0 env f rs1).1).exceptionDetails) = _
    rw [hd3, hd2, hd1]
    rfl

theorem C4_witness :
    (SingleMethodExecute envSlot0Boom (mkMT (some 0) none 2)).result =
      .error (.aggregated "boom") :=
  (C4_amended_message_source envSlot0Boom (mkMT (some 0) none 2) 0 "boom" rfl
      (fun _ => rfl) (fun _ => rfl)).1 (by decide)
    (fun i hi => by
      have h : i ≠ 0 := by omega
      simp [envSlot0Boom, h])

end ITKMT
